import Mathlib

/-!
Formal model of the worlder-team-assignment data generator ("a-service") and
its fleet CLI ("a-plane"), shallowly embedded in Lean 4.

Conventions of the embedding:
* machine times are modelled exactly: instants as rationals (seconds since an
  arbitrary epoch), durations as integers (nanoseconds, mirroring the Go type
  `time.Duration`);
* float64 arithmetic is modelled over `ℚ` (the algebraic content of the claims,
  exact rather than rounded);
* `uint64` counters live in `Nat` with an explicit `% 2 ^ 64` where Go would
  wrap;
* fallible or panicking code returns `Option`;
* the opaque gRPC `ReadingSink` is abstracted by a per-call outcome function
  supplied as a parameter: the generator code never inspects the reply beyond
  success or failure.

Definitions are translated from `a-service/usecase/generator.go`,
`a-service/router/generator/GeneratorRouter.go`, `a-service/main.go`
(load-test client) and the `a-plane` CLI (`aggregateStats` and friends).
-/

namespace Generator

/-- Nanoseconds in one second (`time.Second`). -/
def nsPerSecond : Int := 1000000000

/-- The mutable state of `DataGeneratorImpl` (generator.go).  The Go struct
additionally holds a mutex, a gRPC client and a stop channel; the mutex
serialises the methods (which the sequential embedding reflects), the client
is abstracted by outcome functions, and the stop channel is modelled by
`stopChanOpen` (true between a `Start` and the `Stop` that closes it). -/
structure DataGeneratorImpl where
  isRunning : Bool
  stopChanOpen : Bool
  /-- interval between requests, in nanoseconds -/
  frequency : Int
  /-- instant recorded by `Start`; `0` models the Go zero `time.Time` -/
  startTime : ℚ
  serverAddr : String
  sensorValue : ℚ
  sensorType : String
  id1 : String
  id2 : Int
  requestTimeout : Int
  totalSent : Nat
  totalFailed : Nat
  deriving Repr, DecidableEq

/-- Model of `NewDataGenerator` (generator.go): fields not listed in the Go literal take
Go zero values. -/
def NewDataGenerator (serverAddr : String) : DataGeneratorImpl :=
  { isRunning := false
    stopChanOpen := false
    frequency := nsPerSecond
    startTime := 0
    serverAddr := serverAddr
    sensorValue := 10
    sensorType := "TEMP"
    id1 := "ABCDEFGH"
    id2 := 1
    requestTimeout := nsPerSecond
    totalSent := 0
    totalFailed := 0 }

/-- Model of `GeneratorConfig` (generator.go).  the Go `Type` field is spelled `Typ`
because `Type` is reserved in Lean. -/
structure GeneratorConfig where
  Value : ℚ
  Typ : String
  ID1 : String
  ID2 : Int
  ServerAddr : String
  deriving Repr, DecidableEq

/-- Model of `Config` (generator.go): each payload field overwrites the stored one
exactly when it differs from its Go zero value.  Note the `ServerAddr`
request field is never read. -/
def Config (dg : DataGeneratorImpl) (config : GeneratorConfig) : DataGeneratorImpl :=
  let dg := if config.Value ≠ 0 then { dg with sensorValue := config.Value } else dg
  let dg := if config.Typ ≠ "" then { dg with sensorType := config.Typ } else dg
  let dg := if config.ID1 ≠ "" then { dg with id1 := config.ID1 } else dg
  let dg := if config.ID2 ≠ 0 then { dg with id2 := config.ID2 } else dg
  dg

/-- Model of `Start` (generator.go).  `now` is the value of `time.Now()`.  When already
running it returns `false` without touching the state; otherwise it marks the
generator running, installs a fresh (open) stop channel, records the start
instant and returns `true`. -/
def Start (dg : DataGeneratorImpl) (now : ℚ) : DataGeneratorImpl × Bool :=
  if dg.isRunning then
    (dg, false)
  else
    ({ dg with isRunning := true, stopChanOpen := true, startTime := now }, true)

/-- Model of `Stop` (generator.go): returns `false` when not running; otherwise clears
the running flag, closes the stop channel and returns `true`. -/
def Stop (dg : DataGeneratorImpl) : DataGeneratorImpl × Bool :=
  if dg.isRunning then
    ({ dg with isRunning := false, stopChanOpen := false }, true)
  else
    (dg, false)

/-- Model of `SetFrequency` (generator.go): stores the duration unconditionally. -/
def SetFrequency (dg : DataGeneratorImpl) (freq : Int) : DataGeneratorImpl :=
  { dg with frequency := freq }

/-- The ticker re-arm performed on each tick of `generateContinuously`
(generator.go): re-read the configured frequency and, when it changed, replace
the ticker via `time.NewTicker(newFreq)` — which panics (modelled by `none`)
whenever the period is not positive. -/
def tickRearm (currentFreq newFreq : Int) : Option Int :=
  if newFreq ≠ currentFreq then
    (if newFreq ≤ 0 then none else some newFreq)
  else
    some currentFreq

/-- Model of `IsRunning` (generator.go). -/
def IsRunning (dg : DataGeneratorImpl) : Bool :=
  dg.isRunning

/-- Model of `GetStats` (generator.go). -/
def GetStats (dg : DataGeneratorImpl) : Nat × Nat :=
  (dg.totalSent, dg.totalFailed)

/-- The map returned by `GetDetailedStats` (generator.go). -/
structure DetailedStats where
  Total_Sent : Nat
  Total_Failed : Nat
  Total_Requests : Nat
  Uptime_Seconds : ℚ
  Overall_RPS : ℚ
  Is_Running : Bool
  Configured_FreqMs : Int
  deriving Repr, DecidableEq

/-- Model of `GetDetailedStats` (generator.go).  `now` is the value `time.Since` reads.
The uint64 sum `totalSent + totalFailed` wraps at `2 ^ 64`; the `uptimeSeconds`
and `overallRPS` locals stay `0` unless the guards fire;
`Configured_FreqMs` is the Go `Duration.Milliseconds`, truncating division by
10^6.  The method only reads the state, so the returned state is the input. -/
def GetDetailedStats (dg : DataGeneratorImpl) (now : ℚ) :
    DataGeneratorImpl × DetailedStats :=
  let totalSent := dg.totalSent
  let totalFailed := dg.totalFailed
  let totalRequests : Nat := (totalSent + totalFailed) % 2 ^ 64
  let uptimeSeconds : ℚ :=
    if dg.isRunning ∧ dg.startTime ≠ 0 then now - dg.startTime else 0
  let overallRPS : ℚ :=
    if dg.isRunning ∧ dg.startTime ≠ 0 then
      (if uptimeSeconds > 0 then (totalRequests : ℚ) / uptimeSeconds else 0)
    else 0
  (dg,
    { Total_Sent := totalSent
      Total_Failed := totalFailed
      Total_Requests := totalRequests
      Uptime_Seconds := uptimeSeconds
      Overall_RPS := overallRPS
      Is_Running := dg.isRunning
      Configured_FreqMs := Int.tdiv dg.frequency 1000000 })

/-- Model of `SpamRequest` (generator.go).  `Timeout` models the result of
`time.ParseDuration` on the JSON string: `none` when parsing fails, otherwise
the parsed duration in nanoseconds (`some 0` for strings such as `"0s"` and
the empty string, whose failed parse also yields `0`). -/
structure SpamRequest where
  Total : Int
  Concurrency : Int
  Timeout : Option Int
  Value : ℚ
  Typ : String
  ID1 : String
  ID2 : Int
  deriving Repr, DecidableEq

/-- The map returned by `SpamRequests` (generator.go). -/
structure SpamResult where
  total_requests : Int
  successful : Nat
  failed : Nat
  duration_ms : Int
  requests_per_second : ℚ
  deriving Repr, DecidableEq

/-- The timeout actually used by `SpamRequests` (generator.go):
`timeout, _ := time.ParseDuration(req.Timeout)` leaves `timeout = 0` on a
parse error, and any zero timeout is replaced by `2 * time.Second`. -/
def effectiveSpamTimeout (parsed : Option Int) : Int :=
  let timeout := parsed.getD 0
  if timeout = 0 then 2 * nsPerSecond else timeout

/-- The job indices drained from the `jobs` channel by the worker pool
(generator.go).  Every one of the `Total` buffered jobs is received by exactly
one worker and the closed channel terminates the `range` loop of each worker, provided
at least one worker is spawned; with no workers the jobs are never received. -/
def spamJobs (total : Int) (concurrency : Int) : List Nat :=
  if 1 ≤ concurrency then List.range total.toNat else []

/-- Model of `SpamRequests` (generator.go).  `outcome t i` abstracts the gRPC
`Readings` call for job `i` under per-call timeout `t` (`true` = success);
`elapsed` is the wall-clock duration of the burst in seconds, as measured by
`time.Since(startTime)`.  `make(chan int, req.Total)` panics when `Total` is
negative, modelled by `none`. -/
def SpamRequests (dg : DataGeneratorImpl) (req : SpamRequest)
    (outcome : Int → Nat → Bool) (elapsed : ℚ) :
    DataGeneratorImpl × Option SpamResult :=
  let timeout := effectiveSpamTimeout req.Timeout
  if req.Total < 0 then (dg, none)
  else
    let results := (spamJobs req.Total req.Concurrency).map (outcome timeout)
    let ok := results.count true
    let fail := results.count false
    (dg, some
      { total_requests := req.Total
        successful := ok
        failed := fail
        duration_ms := ⌊elapsed * 1000⌋
        requests_per_second := (req.Total : ℚ) / elapsed })

end Generator

namespace GeneratorRouter

open Generator

/-- The HTTP outcome of the `/frequency` endpoint
(GeneratorRouter.go, `SetFrequency`). -/
inductive FrequencyResponse where
  | badRequest : FrequencyResponse
  | okSet : FrequencyResponse
  deriving Repr, DecidableEq

/-- Router `SetFrequency` (GeneratorRouter.go): bind the body, run
`time.ParseDuration` on its `timeout` field (`parsed`, `none` on error),
answer 400 on a parse error, and otherwise hand the duration — whatever its
sign — to the usecase. -/
def routerSetFrequency (dg : DataGeneratorImpl) (parsed : Option Int) :
    DataGeneratorImpl × FrequencyResponse :=
  match parsed with
  | none => (dg, .badRequest)
  | some duration => (SetFrequency dg duration, .okSet)

/-- The HTTP outcome of the `/spam` endpoint (GeneratorRouter.go). -/
inductive SpamResponse where
  | badRequest : SpamResponse
  | okResult : SpamResult → SpamResponse
  deriving Repr, DecidableEq

/-- Router `SpamRequests` (GeneratorRouter.go): `bound` is the result of
binding the JSON body (`none` = bind error, answered with 400); any bound
request goes straight to the usecase and its result is answered with 200.
The outer `Option` propagates the usecase panic on a negative total. -/
def routerSpamRequests (dg : DataGeneratorImpl) (bound : Option SpamRequest)
    (outcome : Int → Nat → Bool) (elapsed : ℚ) :
    DataGeneratorImpl × Option SpamResponse :=
  match bound with
  | none => (dg, some .badRequest)
  | some req =>
      let (dg2, res) := Generator.SpamRequests dg req outcome elapsed
      (dg2, res.map .okResult)

end GeneratorRouter

namespace LoadClient

/-- The latency percentile closure `p` of the load-test client
(a-service/main.go).  `latencies` is the sorted latency slice (durations
modelled as exact rationals).  For quantile `q`:
empty slice gives 0; otherwise index `⌈q * N⌉ - 1` clamped to `[0, N-1]`
(`int(math.Ceil(q*float64(N)) - 1)` truncates an already integral float). -/
def p (latencies : List ℚ) (q : ℚ) : ℚ :=
  if latencies.length = 0 then 0
  else
    let i0 : Int := ⌈q * (latencies.length : ℚ)⌉ - 1
    let i1 : Int := if i0 < 0 then 0 else i0
    let i2 : Int := if i1 ≥ (latencies.length : Int) then (latencies.length : Int) - 1 else i1
    latencies.getD i2.toNat 0

end LoadClient

namespace APlane

/-- The `data` object of the stats document of one endpoint
(a-plane, `StatsResponse`); float64 fields modelled over `ℚ`. -/
structure StatsData where
  ConfiguredFreqMs : ℚ
  IsRunning : Bool
  OverallRPS : ℚ
  TotalFailed : ℚ
  TotalRequests : ℚ
  TotalSent : ℚ
  UptimeSeconds : ℚ
  deriving Repr, DecidableEq

/-- The `struct{ Min, Max, Avg float64 }` aggregate (a-plane). -/
structure MinMaxAvg where
  Min : ℚ
  Max : ℚ
  Avg : ℚ
  deriving Repr, DecidableEq

/-- The `struct{ Min, Max, Avg, Total float64 }` aggregate (a-plane). -/
structure MinMaxAvgTotal where
  Min : ℚ
  Max : ℚ
  Avg : ℚ
  Total : ℚ
  deriving Repr, DecidableEq

/-- The `struct{ Running, Total float64 }` aggregate (a-plane). -/
structure RunningCount where
  Running : ℚ
  Total : ℚ
  deriving Repr, DecidableEq

/-- Model of `AggregatedStats` (a-plane).  `ConfiguredFreqMs` carries no `Total`
field in the Go struct. -/
structure AggregatedStats where
  ConfiguredFreqMs : MinMaxAvg
  IsRunning : RunningCount
  OverallRPS : MinMaxAvgTotal
  TotalFailed : MinMaxAvgTotal
  TotalRequests : MinMaxAvgTotal
  TotalSent : MinMaxAvgTotal
  UptimeSeconds : MinMaxAvgTotal
  deriving Repr, DecidableEq

/-- The Go zero value of `AggregatedStats` (`var agg AggregatedStats`). -/
def zeroAgg : AggregatedStats :=
  { ConfiguredFreqMs := { Min := 0, Max := 0, Avg := 0 }
    IsRunning := { Running := 0, Total := 0 }
    OverallRPS := { Min := 0, Max := 0, Avg := 0, Total := 0 }
    TotalFailed := { Min := 0, Max := 0, Avg := 0, Total := 0 }
    TotalRequests := { Min := 0, Max := 0, Avg := 0, Total := 0 }
    TotalSent := { Min := 0, Max := 0, Avg := 0, Total := 0 }
    UptimeSeconds := { Min := 0, Max := 0, Avg := 0, Total := 0 } }

/-- One iteration of the `for _, resp := range responses` loop of
`aggregateStats` (a-plane): conditional min/max updates and running sums
for each metric, plus the running-flag counters. -/
def aggStep (agg : AggregatedStats) (data : StatsData) : AggregatedStats :=
  { ConfiguredFreqMs :=
      { Min := if data.ConfiguredFreqMs < agg.ConfiguredFreqMs.Min then
                 data.ConfiguredFreqMs else agg.ConfiguredFreqMs.Min
        Max := if data.ConfiguredFreqMs > agg.ConfiguredFreqMs.Max then
                 data.ConfiguredFreqMs else agg.ConfiguredFreqMs.Max
        Avg := agg.ConfiguredFreqMs.Avg + data.ConfiguredFreqMs }
    IsRunning :=
      { Running := agg.IsRunning.Running + (if data.IsRunning then 1 else 0)
        Total := agg.IsRunning.Total + 1 }
    OverallRPS :=
      { Min := if data.OverallRPS < agg.OverallRPS.Min then
                 data.OverallRPS else agg.OverallRPS.Min
        Max := if data.OverallRPS > agg.OverallRPS.Max then
                 data.OverallRPS else agg.OverallRPS.Max
        Avg := agg.OverallRPS.Avg + data.OverallRPS
        Total := agg.OverallRPS.Total + data.OverallRPS }
    TotalFailed :=
      { Min := if data.TotalFailed < agg.TotalFailed.Min then
                 data.TotalFailed else agg.TotalFailed.Min
        Max := if data.TotalFailed > agg.TotalFailed.Max then
                 data.TotalFailed else agg.TotalFailed.Max
        Avg := agg.TotalFailed.Avg + data.TotalFailed
        Total := agg.TotalFailed.Total + data.TotalFailed }
    TotalRequests :=
      { Min := if data.TotalRequests < agg.TotalRequests.Min then
                 data.TotalRequests else agg.TotalRequests.Min
        Max := if data.TotalRequests > agg.TotalRequests.Max then
                 data.TotalRequests else agg.TotalRequests.Max
        Avg := agg.TotalRequests.Avg + data.TotalRequests
        Total := agg.TotalRequests.Total + data.TotalRequests }
    TotalSent :=
      { Min := if data.TotalSent < agg.TotalSent.Min then
                 data.TotalSent else agg.TotalSent.Min
        Max := if data.TotalSent > agg.TotalSent.Max then
                 data.TotalSent else agg.TotalSent.Max
        Avg := agg.TotalSent.Avg + data.TotalSent
        Total := agg.TotalSent.Total + data.TotalSent }
    UptimeSeconds :=
      { Min := if data.UptimeSeconds < agg.UptimeSeconds.Min then
                 data.UptimeSeconds else agg.UptimeSeconds.Min
        Max := if data.UptimeSeconds > agg.UptimeSeconds.Max then
                 data.UptimeSeconds else agg.UptimeSeconds.Max
        Avg := agg.UptimeSeconds.Avg + data.UptimeSeconds
        Total := agg.UptimeSeconds.Total + data.UptimeSeconds } }

/-- Seed min and max of every numeric metric from the first response
(`aggregateStats`, a-plane), leaving sums and counters at zero. -/
def seedAgg (first : StatsData) : AggregatedStats :=
  { zeroAgg with
    ConfiguredFreqMs := { zeroAgg.ConfiguredFreqMs with
      Min := first.ConfiguredFreqMs, Max := first.ConfiguredFreqMs }
    OverallRPS := { zeroAgg.OverallRPS with
      Min := first.OverallRPS, Max := first.OverallRPS }
    TotalFailed := { zeroAgg.TotalFailed with
      Min := first.TotalFailed, Max := first.TotalFailed }
    TotalRequests := { zeroAgg.TotalRequests with
      Min := first.TotalRequests, Max := first.TotalRequests }
    TotalSent := { zeroAgg.TotalSent with
      Min := first.TotalSent, Max := first.TotalSent }
    UptimeSeconds := { zeroAgg.UptimeSeconds with
      Min := first.UptimeSeconds, Max := first.UptimeSeconds } }

/-- Final step of `aggregateStats` (a-plane): divide each accumulated `Avg`
sum by the response count. -/
def divideAvgs (agg : AggregatedStats) (count : Nat) : AggregatedStats :=
  { agg with
    ConfiguredFreqMs := { agg.ConfiguredFreqMs with
      Avg := agg.ConfiguredFreqMs.Avg / (count : ℚ) }
    OverallRPS := { agg.OverallRPS with
      Avg := agg.OverallRPS.Avg / (count : ℚ) }
    TotalFailed := { agg.TotalFailed with
      Avg := agg.TotalFailed.Avg / (count : ℚ) }
    TotalRequests := { agg.TotalRequests with
      Avg := agg.TotalRequests.Avg / (count : ℚ) }
    TotalSent := { agg.TotalSent with
      Avg := agg.TotalSent.Avg / (count : ℚ) }
    UptimeSeconds := { agg.UptimeSeconds with
      Avg := agg.UptimeSeconds.Avg / (count : ℚ) } }

/-- Model of `aggregateStats` (a-plane): zero aggregate for an empty slice; otherwise
seed min/max from the first response, fold the loop body over the whole
slice (the first response included), then divide the averages by the count. -/
def aggregateStats (responses : List StatsData) : AggregatedStats :=
  match responses with
  | [] => zeroAgg
  | first :: _ =>
      divideAvgs (responses.foldl aggStep (seedAgg first)) responses.length

/-- The observable outcome of the `/api/v1/stats` fetch of one endpoint in
`getAggregatedStats` (a-plane): whether the HTTP round trip succeeded, the
status code, whether the JSON body decoded, and the decoded stats. -/
structure EndpointOutcome where
  transportOk : Bool
  statusCode : Int
  decodeOk : Bool
  stats : StatsData
  deriving Repr, DecidableEq

/-- The inclusion test of `getAggregatedStats` (a-plane): a goroutine appends
its response exactly when the request was created and transported without
error, `resp.StatusCode != 200` did not fire, and the body decoded. -/
def endpointIncluded (e : EndpointOutcome) : Bool :=
  e.transportOk && (e.statusCode == 200) && e.decodeOk

/-- What the `stats` command reports (a-plane, `getAggregatedStats`). -/
inductive StatsCmdResult where
  | noSuccessfulResponses : StatsCmdResult
  | aggregated : AggregatedStats → Nat → StatsCmdResult
  deriving Repr, DecidableEq

/-- Model of `getAggregatedStats` (a-plane): gather the responses of the included
endpoints (each failing endpoint merely returns from its goroutine, leaving
the rest to proceed), report "No successful responses received" when none
remain, and otherwise aggregate and print with the responding count. -/
def getAggregatedStats (endpoints : List EndpointOutcome) : StatsCmdResult :=
  let responses := (endpoints.filter endpointIncluded).map (fun e => e.stats)
  if responses.length = 0 then .noSuccessfulResponses
  else .aggregated (aggregateStats responses) responses.length

/-- The action of one `aggregateStats` loop iteration on a single
min/max/avg/total metric, read off from `aggStep`. -/
def mmatStep (m : MinMaxAvgTotal) (x : ℚ) : MinMaxAvgTotal :=
  { Min := if x < m.Min then x else m.Min
    Max := if x > m.Max then x else m.Max
    Avg := m.Avg + x
    Total := m.Total + x }

/-- The action of one `aggregateStats` loop iteration on the
min/max/avg-only metric (`ConfiguredFreqMs`). -/
def mmaStep (m : MinMaxAvg) (x : ℚ) : MinMaxAvg :=
  { Min := if x < m.Min then x else m.Min
    Max := if x > m.Max then x else m.Max
    Avg := m.Avg + x }

/-- The action of one `aggregateStats` loop iteration on the running-flag
counters. -/
def rcStep (r : RunningCount) (b : Bool) : RunningCount :=
  { Running := r.Running + (if b then 1 else 0)
    Total := r.Total + 1 }

/-- Specification predicate: `m` is the minimum of the samples `xs`. -/
def IsMinOf (m : ℚ) (xs : List ℚ) : Prop :=
  m ∈ xs ∧ ∀ x ∈ xs, m ≤ x

/-- Specification predicate: `m` is the maximum of the samples `xs`. -/
def IsMaxOf (m : ℚ) (xs : List ℚ) : Prop :=
  m ∈ xs ∧ ∀ x ∈ xs, x ≤ m

/-- Specification predicate: a min/max/avg/total aggregate is correct for the
sample list `xs`: min and max are attained bounds, avg is the sum divided by
the count, total is the sum. -/
def AggOk (a : MinMaxAvgTotal) (xs : List ℚ) : Prop :=
  IsMinOf a.Min xs ∧ IsMaxOf a.Max xs ∧
    a.Avg = xs.sum / (xs.length : ℚ) ∧ a.Total = xs.sum

/-- Specification predicate: a min/max/avg aggregate (no total) is correct for
the sample list `xs`. -/
def AggOkMMA (a : MinMaxAvg) (xs : List ℚ) : Prop :=
  IsMinOf a.Min xs ∧ IsMaxOf a.Max xs ∧ a.Avg = xs.sum / (xs.length : ℚ)

/-- Stats document with every field zero except `TotalSent`. -/
def sentOnly (v : ℚ) : StatsData :=
  { ConfiguredFreqMs := 0, IsRunning := false, OverallRPS := 0,
    TotalFailed := 0, TotalRequests := 0, TotalSent := v, UptimeSeconds := 0 }

/-- The three endpoint responses of the aggregation scenario in the spec:
`totalSent = {10, 20, 30}`. -/
def scenarioResponses : List StatsData :=
  [sentOnly 10, sentOnly 20, sentOnly 30]

/-- A transported, decodable endpoint response carrying HTTP status 204. -/
def endpoint204 : EndpointOutcome :=
  { transportOk := true, statusCode := 204, decodeOk := true, stats := sentOnly 0 }

end APlane

/-- A concrete burst request: two jobs on one worker, an explicit 1s timeout. -/
def spamReqTwo : Generator.SpamRequest :=
  { Total := 2, Concurrency := 1, Timeout := some Generator.nsPerSecond,
    Value := 10, Typ := "TEMP", ID1 := "ABCDEFGH", ID2 := 1 }

/-- A concrete per-call outcome: job 0 succeeds, every other job fails. -/
def outcomeFirst : Int → Nat → Bool :=
  fun _ i => i == 0

/-- A concrete burst request with an unparsable timeout string and
non-positive total and concurrency. -/
def spamReqDegenerate : Generator.SpamRequest :=
  { Total := 0, Concurrency := 0, Timeout := none,
    Value := 0, Typ := "", ID1 := "", ID2 := 0 }

/-- A concrete burst request with an unparsable timeout but a real workload. -/
def spamReqBadTimeout : Generator.SpamRequest :=
  { Total := 1, Concurrency := 1, Timeout := none,
    Value := 10, Typ := "TEMP", ID1 := "ABCDEFGH", ID2 := 1 }

open Generator GeneratorRouter LoadClient APlane

/-- Claim C1: `Start` on a running Emitter returns `false` and leaves the whole
state unchanged, while `Start` on a stopped Emitter returns `true` and makes it
running; `Stop` on a stopped Emitter returns `false` with no side effect, while
`Stop` on a running Emitter returns `true` and makes it stopped, so two
consecutive `Stop` calls with no intervening `Start` return `true` then
`false`. -/
theorem start_stop_transitions (dg : DataGeneratorImpl) (now : ℚ) :
    (dg.isRunning = true → Start dg now = (dg, false)) ∧
    (dg.isRunning = false →
      (Start dg now).2 = true ∧ (Start dg now).1.isRunning = true) ∧
    (dg.isRunning = false → Stop dg = (dg, false)) ∧
    (dg.isRunning = true →
      (Stop dg).2 = true ∧ (Stop dg).1.isRunning = false) ∧
    (dg.isRunning = true →
      (Stop dg).2 = true ∧ (Stop (Stop dg).1).2 = false) := by
  unfold Start Stop
  cases h : dg.isRunning <;> simp [h]

/-- Witness for C1: a freshly started generator stops with `true` once and a
second immediate `Stop` answers `false`. -/
theorem start_stop_transitions_witness :
    ((Stop (Start (NewDataGenerator "localhost:50051") 1).1).2 = true ∧
      (Stop (Stop (Start (NewDataGenerator "localhost:50051") 1).1).1).2 = false) :=
  (start_stop_transitions (Start (NewDataGenerator "localhost:50051") 1).1 1).2.2.2.2
    (by rfl)

/-- Claim C6: `Config` replaces each of the four payload fields exactly when
the request carries a non-zero/non-empty value for it, and leaves every other
field of the Emitter state untouched. -/
theorem config_partial_update (dg : DataGeneratorImpl) (c : GeneratorConfig) :
    (Config dg c).sensorValue = (if c.Value ≠ 0 then c.Value else dg.sensorValue) ∧
    (Config dg c).sensorType = (if c.Typ ≠ "" then c.Typ else dg.sensorType) ∧
    (Config dg c).id1 = (if c.ID1 ≠ "" then c.ID1 else dg.id1) ∧
    (Config dg c).id2 = (if c.ID2 ≠ 0 then c.ID2 else dg.id2) ∧
    (Config dg c).frequency = dg.frequency ∧
    (Config dg c).requestTimeout = dg.requestTimeout ∧
    (Config dg c).serverAddr = dg.serverAddr ∧
    (Config dg c).isRunning = dg.isRunning ∧
    (Config dg c).stopChanOpen = dg.stopChanOpen ∧
    (Config dg c).startTime = dg.startTime ∧
    (Config dg c).totalSent = dg.totalSent ∧
    (Config dg c).totalFailed = dg.totalFailed := by
  unfold Config
  split_ifs <;> simp_all

/-- In any list of booleans, the occurrences of `true` and of `false` together
exhaust the list. -/
theorem count_true_add_count_false (l : List Bool) :
    l.count true + l.count false = l.length := by
  induction l with
  | nil => rfl
  | cons b t ih =>
      cases b <;> simp [List.count_cons] <;> omega

/-- Claim C9: `GetDetailedStats` reports `Total_Requests = sent + failed`
(below the uint64 wrap), uptime `now - startTime` when running and `0` when
stopped, a throughput of `Total_Requests / uptime` exactly when the uptime is
positive and `0` otherwise, the configured period in (truncated) milliseconds
and the running flag — and mutates no Emitter state. -/
theorem detailed_stats_correct (dg : DataGeneratorImpl) (now : ℚ)
    (hstart : dg.isRunning = true → dg.startTime ≠ 0)
    (hwrap : dg.totalSent + dg.totalFailed < 2 ^ 64) :
    (GetDetailedStats dg now).1 = dg ∧
    (GetDetailedStats dg now).2.Total_Requests = dg.totalSent + dg.totalFailed ∧
    (dg.isRunning = true →
      (GetDetailedStats dg now).2.Uptime_Seconds = now - dg.startTime) ∧
    (dg.isRunning = false → (GetDetailedStats dg now).2.Uptime_Seconds = 0) ∧
    ((GetDetailedStats dg now).2.Uptime_Seconds > 0 →
      (GetDetailedStats dg now).2.Overall_RPS =
        ((GetDetailedStats dg now).2.Total_Requests : ℚ) /
          (GetDetailedStats dg now).2.Uptime_Seconds) ∧
    (¬ (GetDetailedStats dg now).2.Uptime_Seconds > 0 →
      (GetDetailedStats dg now).2.Overall_RPS = 0) ∧
    (GetDetailedStats dg now).2.Configured_FreqMs = Int.tdiv dg.frequency 1000000 ∧
    (GetDetailedStats dg now).2.Is_Running = dg.isRunning ∧
    (GetDetailedStats dg now).2.Total_Sent = dg.totalSent ∧
    (GetDetailedStats dg now).2.Total_Failed = dg.totalFailed := by
  have hmod : (dg.totalSent + dg.totalFailed) % 2 ^ 64 = dg.totalSent + dg.totalFailed :=
    Nat.mod_eq_of_lt hwrap
  refine ⟨rfl, hmod, ?_, ?_, ?_, ?_, rfl, rfl, rfl, rfl⟩
  · intro h
    have hz := hstart h
    simp [GetDetailedStats, h, hz]
  · intro h
    simp [GetDetailedStats, h]
  · intro hpos
    by_cases hr : dg.isRunning = true
    · have hz := hstart hr
      simp only [GetDetailedStats, hr, ne_eq, hz, not_false_eq_true, and_self,
        if_true, gt_iff_lt] at hpos ⊢
      rw [if_pos hpos]
    · have hr2 : dg.isRunning = false := by simpa using hr
      simp [GetDetailedStats, hr2] at hpos
  · intro hnpos
    by_cases hr : dg.isRunning = true
    · have hz := hstart hr
      simp only [GetDetailedStats, hr, ne_eq, hz, not_false_eq_true, and_self,
        if_true, gt_iff_lt] at hnpos ⊢
      rw [if_neg hnpos]
    · have hr2 : dg.isRunning = false := by simpa using hr
      simp [GetDetailedStats, hr2]

/-- Witness for C9: a generator started at instant 5, observed at instant 7,
reports 2 seconds of uptime. -/
theorem detailed_stats_correct_witness :
    (GetDetailedStats (Start (NewDataGenerator "localhost:50051") 5).1 7).2.Uptime_Seconds
      = 7 - 5 :=
  (detailed_stats_correct (Start (NewDataGenerator "localhost:50051") 5).1 7
      (fun _ => by decide) (by decide)).2.2.1 (by rfl)

/-- Claim C2: a burst with `total = N ≥ 0` and `concurrency ≥ 1` drains exactly
`N` jobs to the ReadingSink and returns a result with
`successful + failed = N` for any mix of per-call outcomes, and with
`requests_per_second = N / elapsed` over the wall-clock elapsed seconds of the
whole burst; for `N = 0` it returns zero successes, zero failures and zero
throughput without error or division fault. -/
theorem spam_requests_conservation (dg : DataGeneratorImpl) (req : SpamRequest)
    (outcome : Int → Nat → Bool) (elapsed : ℚ)
    (hT : 0 ≤ req.Total) (hC : 1 ≤ req.Concurrency) (_hE : 0 < elapsed) :
    ∃ r : SpamResult,
      (SpamRequests dg req outcome elapsed).2 = some r ∧
      (spamJobs req.Total req.Concurrency).length = req.Total.toNat ∧
      r.successful + r.failed = req.Total.toNat ∧
      r.requests_per_second = (req.Total : ℚ) / elapsed ∧
      (req.Total = 0 → r.successful = 0 ∧ r.failed = 0 ∧ r.requests_per_second = 0) := by
  have hnot : ¬ req.Total < 0 := not_lt.mpr hT
  have hjobs : spamJobs req.Total req.Concurrency = List.range req.Total.toNat := by
    simp [spamJobs, hC]
  refine ⟨{ total_requests := req.Total
            successful := ((List.range req.Total.toNat).map
              (outcome (effectiveSpamTimeout req.Timeout))).count true
            failed := ((List.range req.Total.toNat).map
              (outcome (effectiveSpamTimeout req.Timeout))).count false
            duration_ms := ⌊elapsed * 1000⌋
            requests_per_second := (req.Total : ℚ) / elapsed },
    ?_, ?_, ?_, rfl, ?_⟩
  · simp [SpamRequests, hnot, hjobs]
  · simp [hjobs]
  · rw [count_true_add_count_false]
    simp
  · intro h0
    simp [h0]

/-- Witness for C2: a two-job burst on one worker where the first call
succeeds and the second fails. -/
theorem spam_requests_conservation_witness :
    ∃ r : SpamResult,
      (SpamRequests (NewDataGenerator "localhost:50051") spamReqTwo outcomeFirst 2).2
        = some r ∧
      (spamJobs spamReqTwo.Total spamReqTwo.Concurrency).length = spamReqTwo.Total.toNat ∧
      r.successful + r.failed = spamReqTwo.Total.toNat ∧
      r.requests_per_second = (spamReqTwo.Total : ℚ) / 2 ∧
      (spamReqTwo.Total = 0 →
        r.successful = 0 ∧ r.failed = 0 ∧ r.requests_per_second = 0) :=
  spam_requests_conservation (NewDataGenerator "localhost:50051") spamReqTwo
    outcomeFirst 2 (by decide) (by decide) (by decide)

/-- Claim C10: a burst whose timeout string fails to parse, or parses to
exactly zero, silently gets a per-call timeout of 2 seconds: the burst behaves
exactly as if the caller had asked for 2 seconds, still runs, and returns a
normal result carrying no trace of the substitution. -/
theorem spam_timeout_silent_default (dg : DataGeneratorImpl) (req : SpamRequest)
    (outcome : Int → Nat → Bool) (elapsed : ℚ)
    (hbad : req.Timeout = none ∨ req.Timeout = some 0) :
    effectiveSpamTimeout none = 2 * nsPerSecond ∧
    effectiveSpamTimeout (some 0) = 2 * nsPerSecond ∧
    SpamRequests dg req outcome elapsed =
      SpamRequests dg { req with Timeout := some (2 * nsPerSecond) } outcome elapsed ∧
    (0 ≤ req.Total → ∃ r : SpamResult, (SpamRequests dg req outcome elapsed).2 = some r) := by
  have heff : effectiveSpamTimeout req.Timeout = 2 * nsPerSecond := by
    rcases hbad with h | h <;> simp [h, effectiveSpamTimeout]
  refine ⟨rfl, rfl, ?_, ?_⟩
  · have h2 : effectiveSpamTimeout (some (2 * nsPerSecond)) = 2 * nsPerSecond := by
      simp [effectiveSpamTimeout, nsPerSecond]
    simp only [SpamRequests, heff, h2]
  · intro hT
    have hnot : ¬ req.Total < 0 := not_lt.mpr hT
    refine ⟨{ total_requests := req.Total
              successful := ((spamJobs req.Total req.Concurrency).map
                (outcome (effectiveSpamTimeout req.Timeout))).count true
              failed := ((spamJobs req.Total req.Concurrency).map
                (outcome (effectiveSpamTimeout req.Timeout))).count false
              duration_ms := ⌊elapsed * 1000⌋
              requests_per_second := (req.Total : ℚ) / elapsed }, ?_⟩
    simp [SpamRequests, hnot]

/-- Witness for C10: a one-job burst with an unparsable timeout string runs
and returns a result. -/
theorem spam_timeout_silent_default_witness :
    SpamRequests (NewDataGenerator "localhost:50051") spamReqBadTimeout outcomeFirst 1 =
      SpamRequests (NewDataGenerator "localhost:50051")
        { spamReqBadTimeout with Timeout := some (2 * nsPerSecond) } outcomeFirst 1 :=
  (spam_timeout_silent_default (NewDataGenerator "localhost:50051") spamReqBadTimeout
    outcomeFirst 1 (Or.inl rfl)).2.2.1

/-- Counterexample to C8: a burst whose timeout string does not parse and
whose total and concurrency are both non-positive is not rejected — the
router answers HTTP 200 with a normal result map. -/
theorem spam_invalid_not_rejected :
    (routerSpamRequests (NewDataGenerator "localhost:50051") (some spamReqDegenerate)
        (fun _ _ => true) 1).2 =
      some (.okResult { total_requests := 0, successful := 0, failed := 0,
                        duration_ms := 1000, requests_per_second := 0 }) := by
  norm_num [routerSpamRequests, SpamRequests, spamReqDegenerate, spamJobs,
    effectiveSpamTimeout]

/-- Claim C8 (amended): only a request body that fails binding is rejected
synchronously (HTTP 400, no sink call, no state change); a burst whose timeout
string is invalid is not rejected — it proceeds with the 2-second default —
and a burst with `total = 0` or `concurrency ≤ 0` is not rejected either: it
performs no ReadingSink calls and returns a normal success result. -/
theorem spam_validation_behaviour (dg : DataGeneratorImpl) (req : SpamRequest)
    (outcome : Int → Nat → Bool) (elapsed : ℚ) :
    routerSpamRequests dg none outcome elapsed = (dg, some .badRequest) ∧
    (req.Timeout = none → 0 ≤ req.Total →
      ∃ r : SpamResult,
        (routerSpamRequests dg (some req) outcome elapsed).2 = some (.okResult r)) ∧
    ((req.Total = 0 ∨ req.Concurrency ≤ 0) → 0 ≤ req.Total →
      spamJobs req.Total req.Concurrency = [] ∧
      ∃ r : SpamResult,
        (SpamRequests dg req outcome elapsed).2 = some r ∧
        r.successful = 0 ∧ r.failed = 0) := by
  refine ⟨rfl, ?_, ?_⟩
  · intro _ hT
    have hnot : ¬ req.Total < 0 := not_lt.mpr hT
    refine ⟨{ total_requests := req.Total
              successful := ((spamJobs req.Total req.Concurrency).map
                (outcome (effectiveSpamTimeout req.Timeout))).count true
              failed := ((spamJobs req.Total req.Concurrency).map
                (outcome (effectiveSpamTimeout req.Timeout))).count false
              duration_ms := ⌊elapsed * 1000⌋
              requests_per_second := (req.Total : ℚ) / elapsed }, ?_⟩
    simp [routerSpamRequests, SpamRequests, hnot]
  · intro hdeg hT
    have hnot : ¬ req.Total < 0 := not_lt.mpr hT
    have hjobs : spamJobs req.Total req.Concurrency = [] := by
      rcases hdeg with h | h
      · simp [spamJobs, h]
      · have : ¬ 1 ≤ req.Concurrency := by omega
        simp [spamJobs, this]
    refine ⟨hjobs,
      { total_requests := req.Total, successful := 0, failed := 0
        duration_ms := ⌊elapsed * 1000⌋
        requests_per_second := (req.Total : ℚ) / elapsed }, ?_, rfl, rfl⟩
    simp [SpamRequests, hnot, hjobs]

/-- Witness for the amended C8: the degenerate burst (unparsable timeout,
zero total, zero concurrency) yields an empty job list and a result with zero
successes and failures, and a bind failure is answered with 400. -/
theorem spam_validation_behaviour_witness :
    routerSpamRequests (NewDataGenerator "localhost:50051") none outcomeFirst 1 =
      (NewDataGenerator "localhost:50051", some .badRequest) ∧
    spamJobs spamReqDegenerate.Total spamReqDegenerate.Concurrency = [] ∧
    ∃ r : SpamResult,
      (SpamRequests (NewDataGenerator "localhost:50051") spamReqDegenerate
        outcomeFirst 1).2 = some r ∧
      r.successful = 0 ∧ r.failed = 0 := by
  have h := spam_validation_behaviour (NewDataGenerator "localhost:50051")
    spamReqDegenerate outcomeFirst 1
  exact ⟨h.1, h.2.2 (Or.inl (by decide)) (by decide)⟩

/-- Claim C7 (refuting evidence): the `/frequency` endpoint accepts a body
whose duration string parses to zero (such as `"0s"`), stores a period of 0 in
the Emitter, and the next ticker re-arm of the emission loop panics; the
invariant `period > 0` is neither enforced by rejection nor by substituting a
default. -/
theorem setfrequency_accepts_zero_period :
    (routerSetFrequency (NewDataGenerator "localhost:50051") (some 0)).2 =
      .okSet ∧
    (routerSetFrequency (NewDataGenerator "localhost:50051") (some 0)).1.frequency = 0 ∧
    ¬ 0 < (routerSetFrequency (NewDataGenerator "localhost:50051") (some 0)).1.frequency ∧
    tickRearm
      (NewDataGenerator "localhost:50051").frequency
      (routerSetFrequency (NewDataGenerator "localhost:50051") (some 0)).1.frequency
      = none := by
  decide

/-- The two-sided clamp written as an if-chain in the load-test client equals
the `min`/`max` clamp of the claim. -/
theorem clamp_chain (c n : Int) (hn : 1 ≤ n) :
    (if (if c < 0 then 0 else c) ≥ n then n - 1 else (if c < 0 then 0 else c))
      = min (max c 0) (n - 1) := by
  split_ifs <;> omega

/-- Lemma: `getD` at the final index of a non-empty list is `getLast`. -/
theorem getD_length_sub_one (l : List ℚ) (h : l ≠ []) :
    l.getD (l.length - 1) 0 = l.getLast h := by
  have hlen : l.length - 1 < l.length := by
    cases l with
    | nil => simp at h
    | cons a t => simp
  rw [List.getD_eq_getElem l 0 hlen, List.getLast_eq_getElem]

/-- In an ascending-sorted list, every element is bounded by the last one. -/
theorem sorted_le_getLast (l : List ℚ) (h : List.Sorted (· ≤ ·) l) (hne : l ≠ []) :
    ∀ x ∈ l, x ≤ l.getLast hne := by
  induction l with
  | nil => simp
  | cons a t ih =>
      rw [List.sorted_cons] at h
      intro x hx
      cases t with
      | nil =>
          simp only [List.mem_singleton] at hx
          simp [hx, List.getLast]
      | cons b u =>
          rw [List.getLast_cons (by simp)]
          rcases List.mem_cons.mp hx with rfl | hx2
          · exact h.1 _ (List.getLast_mem _)
          · exact ih h.2 (by simp) x hx2

/-- Claim C3: on an ascending-sorted latency collection, the percentile
function returns the element at index `⌈q·N⌉ - 1` clamped to `[0, N-1]`
(nearest-rank); quantile 1.0 on a non-empty collection returns the last —
hence maximal — element, and on an empty collection every quantile returns
0. -/
theorem percentile_nearest_rank (latencies : List ℚ) (q : ℚ)
    (hs : List.Sorted (· ≤ ·) latencies) :
    (latencies.length = 0 → p latencies q = 0) ∧
    (latencies ≠ [] →
      p latencies q =
        latencies.getD
          (min (max (⌈q * (latencies.length : ℚ)⌉ - 1) 0)
            ((latencies.length : Int) - 1)).toNat 0) ∧
    (∀ h : latencies ≠ [], p latencies 1 = latencies.getLast h) ∧
    (∀ x ∈ latencies, x ≤ p latencies 1) := by
  have hlast : ∀ h : latencies ≠ [], p latencies 1 = latencies.getLast h := by
    intro h
    have hlen0 : ¬ latencies.length = 0 := by
      simpa [List.length_eq_zero] using h
    have hN : 1 ≤ (latencies.length : Int) := by
      omega
    simp only [p, hlen0, if_false, one_mul, Int.ceil_natCast]
    rw [clamp_chain _ _ hN]
    have hidx : (min (max ((latencies.length : Int) - 1) 0)
        ((latencies.length : Int) - 1)).toNat = latencies.length - 1 := by
      omega
    rw [hidx, getD_length_sub_one _ h]
  refine ⟨?_, ?_, hlast, ?_⟩
  · intro h
    simp [p, h]
  · intro hne
    have hlen0 : ¬ latencies.length = 0 := by
      simpa [List.length_eq_zero] using hne
    have hN : 1 ≤ (latencies.length : Int) := by
      omega
    simp only [p, hlen0, if_false]
    rw [clamp_chain _ _ hN]
  · intro x hx
    have hne : latencies ≠ [] := List.ne_nil_of_mem hx
    rw [hlast hne]
    exact sorted_le_getLast latencies hs hne x hx

/-- Witness for C3: quantile 1.0 over the sorted latencies `[1, 2, 3]` returns
the maximum, 3. -/
theorem percentile_nearest_rank_witness : p [(1 : ℚ), 2, 3] 1 = 3 := by
  have h := (percentile_nearest_rank [(1 : ℚ), 2, 3] 1 (by decide)).2.2.1 (by decide)
  rw [h]
  rfl

/-- The `aggregateStats` fold acts on the `ConfiguredFreqMs` metric as the
scalar fold of `mmaStep` over the projected samples. -/
theorem foldl_aggStep_configuredFreqMs (rs : List StatsData) (agg : AggregatedStats) :
    (rs.foldl aggStep agg).ConfiguredFreqMs =
      (rs.map (fun d => d.ConfiguredFreqMs)).foldl mmaStep agg.ConfiguredFreqMs := by
  induction rs generalizing agg with
  | nil => rfl
  | cons d t ih =>
      simp only [List.foldl_cons, List.map_cons]
      exact ih (aggStep agg d)

/-- The `aggregateStats` fold acts on the `IsRunning` counters as the scalar
fold of `rcStep` over the projected flags. -/
theorem foldl_aggStep_isRunning (rs : List StatsData) (agg : AggregatedStats) :
    (rs.foldl aggStep agg).IsRunning =
      (rs.map (fun d => d.IsRunning)).foldl rcStep agg.IsRunning := by
  induction rs generalizing agg with
  | nil => rfl
  | cons d t ih =>
      simp only [List.foldl_cons, List.map_cons]
      exact ih (aggStep agg d)

/-- The `aggregateStats` fold acts on the `OverallRPS` metric as the scalar
fold of `mmatStep` over the projected samples. -/
theorem foldl_aggStep_overallRPS (rs : List StatsData) (agg : AggregatedStats) :
    (rs.foldl aggStep agg).OverallRPS =
      (rs.map (fun d => d.OverallRPS)).foldl mmatStep agg.OverallRPS := by
  induction rs generalizing agg with
  | nil => rfl
  | cons d t ih =>
      simp only [List.foldl_cons, List.map_cons]
      exact ih (aggStep agg d)

/-- The `aggregateStats` fold acts on the `TotalFailed` metric as the scalar
fold of `mmatStep` over the projected samples. -/
theorem foldl_aggStep_totalFailed (rs : List StatsData) (agg : AggregatedStats) :
    (rs.foldl aggStep agg).TotalFailed =
      (rs.map (fun d => d.TotalFailed)).foldl mmatStep agg.TotalFailed := by
  induction rs generalizing agg with
  | nil => rfl
  | cons d t ih =>
      simp only [List.foldl_cons, List.map_cons]
      exact ih (aggStep agg d)

/-- The `aggregateStats` fold acts on the `TotalRequests` metric as the scalar
fold of `mmatStep` over the projected samples. -/
theorem foldl_aggStep_totalRequests (rs : List StatsData) (agg : AggregatedStats) :
    (rs.foldl aggStep agg).TotalRequests =
      (rs.map (fun d => d.TotalRequests)).foldl mmatStep agg.TotalRequests := by
  induction rs generalizing agg with
  | nil => rfl
  | cons d t ih =>
      simp only [List.foldl_cons, List.map_cons]
      exact ih (aggStep agg d)

/-- The `aggregateStats` fold acts on the `TotalSent` metric as the scalar
fold of `mmatStep` over the projected samples. -/
theorem foldl_aggStep_totalSent (rs : List StatsData) (agg : AggregatedStats) :
    (rs.foldl aggStep agg).TotalSent =
      (rs.map (fun d => d.TotalSent)).foldl mmatStep agg.TotalSent := by
  induction rs generalizing agg with
  | nil => rfl
  | cons d t ih =>
      simp only [List.foldl_cons, List.map_cons]
      exact ih (aggStep agg d)

/-- The `aggregateStats` fold acts on the `UptimeSeconds` metric as the scalar
fold of `mmatStep` over the projected samples. -/
theorem foldl_aggStep_uptimeSeconds (rs : List StatsData) (agg : AggregatedStats) :
    (rs.foldl aggStep agg).UptimeSeconds =
      (rs.map (fun d => d.UptimeSeconds)).foldl mmatStep agg.UptimeSeconds := by
  induction rs generalizing agg with
  | nil => rfl
  | cons d t ih =>
      simp only [List.foldl_cons, List.map_cons]
      exact ih (aggStep agg d)

/-- Folding `mmatStep` drives `Min` down to a lower bound of the samples that
is either the seed or one of the samples. -/
theorem foldl_mmatStep_min (xs : List ℚ) (m : MinMaxAvgTotal) :
    ((xs.foldl mmatStep m).Min = m.Min ∨ (xs.foldl mmatStep m).Min ∈ xs) ∧
    (xs.foldl mmatStep m).Min ≤ m.Min ∧
    ∀ x ∈ xs, (xs.foldl mmatStep m).Min ≤ x := by
  induction xs generalizing m with
  | nil => simp
  | cons x t ih =>
      simp only [List.foldl_cons]
      obtain ⟨hmem, hle, hall⟩ := ih (mmatStep m x)
      have hsle : (mmatStep m x).Min ≤ m.Min := by
        show (if x < m.Min then x else m.Min) ≤ m.Min
        split_ifs with hc
        · exact le_of_lt hc
        · exact le_refl _
      have hslex : (mmatStep m x).Min ≤ x := by
        show (if x < m.Min then x else m.Min) ≤ x
        split_ifs with hc
        · exact le_refl _
        · exact le_of_not_lt hc
      have hscase : (mmatStep m x).Min = x ∨ (mmatStep m x).Min = m.Min := by
        show (if x < m.Min then x else m.Min) = x ∨ (if x < m.Min then x else m.Min) = m.Min
        split_ifs with hc
        · exact Or.inl rfl
        · exact Or.inr rfl
      refine ⟨?_, hle.trans hsle, ?_⟩
      · rcases hmem with h | h
        · rcases hscase with hs | hs
          · exact Or.inr (by rw [h, hs]; exact List.mem_cons_self x t)
          · exact Or.inl (by rw [h, hs])
        · exact Or.inr (List.mem_cons_of_mem x h)
      · intro y hy
        rcases List.mem_cons.mp hy with rfl | hy2
        · exact hle.trans hslex
        · exact hall y hy2

/-- Folding `mmatStep` drives `Max` up to an upper bound of the samples that
is either the seed or one of the samples. -/
theorem foldl_mmatStep_max (xs : List ℚ) (m : MinMaxAvgTotal) :
    ((xs.foldl mmatStep m).Max = m.Max ∨ (xs.foldl mmatStep m).Max ∈ xs) ∧
    m.Max ≤ (xs.foldl mmatStep m).Max ∧
    ∀ x ∈ xs, x ≤ (xs.foldl mmatStep m).Max := by
  induction xs generalizing m with
  | nil => simp
  | cons x t ih =>
      simp only [List.foldl_cons]
      obtain ⟨hmem, hle, hall⟩ := ih (mmatStep m x)
      have hsle : m.Max ≤ (mmatStep m x).Max := by
        show m.Max ≤ (if x > m.Max then x else m.Max)
        split_ifs with hc
        · exact le_of_lt hc
        · exact le_refl _
      have hslex : x ≤ (mmatStep m x).Max := by
        show x ≤ (if x > m.Max then x else m.Max)
        split_ifs with hc
        · exact le_refl _
        · exact le_of_not_lt hc
      have hscase : (mmatStep m x).Max = x ∨ (mmatStep m x).Max = m.Max := by
        show (if x > m.Max then x else m.Max) = x ∨ (if x > m.Max then x else m.Max) = m.Max
        split_ifs with hc
        · exact Or.inl rfl
        · exact Or.inr rfl
      refine ⟨?_, hsle.trans hle, ?_⟩
      · rcases hmem with h | h
        · rcases hscase with hs | hs
          · exact Or.inr (by rw [h, hs]; exact List.mem_cons_self x t)
          · exact Or.inl (by rw [h, hs])
        · exact Or.inr (List.mem_cons_of_mem x h)
      · intro y hy
        rcases List.mem_cons.mp hy with rfl | hy2
        · exact hslex.trans hle
        · exact hall y hy2

/-- Folding `mmatStep` accumulates the sample sum into both `Avg` and
`Total`. -/
theorem foldl_mmatStep_avg_total (xs : List ℚ) (m : MinMaxAvgTotal) :
    (xs.foldl mmatStep m).Avg = m.Avg + xs.sum ∧
    (xs.foldl mmatStep m).Total = m.Total + xs.sum := by
  induction xs generalizing m with
  | nil => simp
  | cons x t ih =>
      simp only [List.foldl_cons, List.sum_cons]
      obtain ⟨h1, h2⟩ := ih (mmatStep m x)
      constructor
      · rw [h1]
        show m.Avg + x + t.sum = m.Avg + (x + t.sum)
        ring
      · rw [h2]
        show m.Total + x + t.sum = m.Total + (x + t.sum)
        ring

/-- The `mmaStep` analogue of the `Min` fold lemma. -/
theorem foldl_mmaStep_min (xs : List ℚ) (m : MinMaxAvg) :
    ((xs.foldl mmaStep m).Min = m.Min ∨ (xs.foldl mmaStep m).Min ∈ xs) ∧
    (xs.foldl mmaStep m).Min ≤ m.Min ∧
    ∀ x ∈ xs, (xs.foldl mmaStep m).Min ≤ x := by
  induction xs generalizing m with
  | nil => simp
  | cons x t ih =>
      simp only [List.foldl_cons]
      obtain ⟨hmem, hle, hall⟩ := ih (mmaStep m x)
      have hsle : (mmaStep m x).Min ≤ m.Min := by
        show (if x < m.Min then x else m.Min) ≤ m.Min
        split_ifs with hc
        · exact le_of_lt hc
        · exact le_refl _
      have hslex : (mmaStep m x).Min ≤ x := by
        show (if x < m.Min then x else m.Min) ≤ x
        split_ifs with hc
        · exact le_refl _
        · exact le_of_not_lt hc
      have hscase : (mmaStep m x).Min = x ∨ (mmaStep m x).Min = m.Min := by
        show (if x < m.Min then x else m.Min) = x ∨ (if x < m.Min then x else m.Min) = m.Min
        split_ifs with hc
        · exact Or.inl rfl
        · exact Or.inr rfl
      refine ⟨?_, hle.trans hsle, ?_⟩
      · rcases hmem with h | h
        · rcases hscase with hs | hs
          · exact Or.inr (by rw [h, hs]; exact List.mem_cons_self x t)
          · exact Or.inl (by rw [h, hs])
        · exact Or.inr (List.mem_cons_of_mem x h)
      · intro y hy
        rcases List.mem_cons.mp hy with rfl | hy2
        · exact hle.trans hslex
        · exact hall y hy2

/-- The `mmaStep` analogue of the `Max` fold lemma. -/
theorem foldl_mmaStep_max (xs : List ℚ) (m : MinMaxAvg) :
    ((xs.foldl mmaStep m).Max = m.Max ∨ (xs.foldl mmaStep m).Max ∈ xs) ∧
    m.Max ≤ (xs.foldl mmaStep m).Max ∧
    ∀ x ∈ xs, x ≤ (xs.foldl mmaStep m).Max := by
  induction xs generalizing m with
  | nil => simp
  | cons x t ih =>
      simp only [List.foldl_cons]
      obtain ⟨hmem, hle, hall⟩ := ih (mmaStep m x)
      have hsle : m.Max ≤ (mmaStep m x).Max := by
        show m.Max ≤ (if x > m.Max then x else m.Max)
        split_ifs with hc
        · exact le_of_lt hc
        · exact le_refl _
      have hslex : x ≤ (mmaStep m x).Max := by
        show x ≤ (if x > m.Max then x else m.Max)
        split_ifs with hc
        · exact le_refl _
        · exact le_of_not_lt hc
      have hscase : (mmaStep m x).Max = x ∨ (mmaStep m x).Max = m.Max := by
        show (if x > m.Max then x else m.Max) = x ∨ (if x > m.Max then x else m.Max) = m.Max
        split_ifs with hc
        · exact Or.inl rfl
        · exact Or.inr rfl
      refine ⟨?_, hsle.trans hle, ?_⟩
      · rcases hmem with h | h
        · rcases hscase with hs | hs
          · exact Or.inr (by rw [h, hs]; exact List.mem_cons_self x t)
          · exact Or.inl (by rw [h, hs])
        · exact Or.inr (List.mem_cons_of_mem x h)
      · intro y hy
        rcases List.mem_cons.mp hy with rfl | hy2
        · exact hslex.trans hle
        · exact hall y hy2

/-- Folding `mmaStep` accumulates the sample sum into `Avg`. -/
theorem foldl_mmaStep_avg (xs : List ℚ) (m : MinMaxAvg) :
    (xs.foldl mmaStep m).Avg = m.Avg + xs.sum := by
  induction xs generalizing m with
  | nil => simp
  | cons x t ih =>
      simp only [List.foldl_cons, List.sum_cons]
      rw [ih (mmaStep m x)]
      show m.Avg + x + t.sum = m.Avg + (x + t.sum)
      ring

/-- Folding `rcStep` counts the `true` flags and the total count. -/
theorem foldl_rcStep_counts (bs : List Bool) (r : RunningCount) :
    (bs.foldl rcStep r).Running = r.Running + (bs.count true : ℚ) ∧
    (bs.foldl rcStep r).Total = r.Total + (bs.length : ℚ) := by
  induction bs generalizing r with
  | nil => simp
  | cons b t ih =>
      simp only [List.foldl_cons, List.count_cons, List.length_cons]
      obtain ⟨h1, h2⟩ := ih (rcStep r b)
      constructor
      · rw [h1]
        cases b
        · show r.Running + 0 + (t.count true : ℚ) = r.Running + _
          push_cast
          ring_nf
          simp
        · show r.Running + 1 + (t.count true : ℚ) = r.Running + _
          simp only [beq_self_eq_true, if_true]
          push_cast
          ring
      · rw [h2]
        show r.Total + 1 + (t.length : ℚ) = r.Total + ((t.length + 1 : Nat) : ℚ)
        push_cast
        ring

/-- A min/max fold seeded with a sample of the list and summed then divided by
the count satisfies the aggregate specification. -/
theorem mmat_fold_aggOk (xs : List ℚ) (x0 : ℚ) (hmem : x0 ∈ xs) :
    AggOk
      { xs.foldl mmatStep { Min := x0, Max := x0, Avg := 0, Total := 0 } with
        Avg := (xs.foldl mmatStep { Min := x0, Max := x0, Avg := 0, Total := 0 }).Avg
          / (xs.length : ℚ) }
      xs := by
  obtain ⟨hminmem, _, hminall⟩ :=
    foldl_mmatStep_min xs { Min := x0, Max := x0, Avg := 0, Total := 0 }
  obtain ⟨hmaxmem, _, hmaxall⟩ :=
    foldl_mmatStep_max xs { Min := x0, Max := x0, Avg := 0, Total := 0 }
  obtain ⟨havg, htot⟩ :=
    foldl_mmatStep_avg_total xs { Min := x0, Max := x0, Avg := 0, Total := 0 }
  refine ⟨⟨?_, hminall⟩, ⟨?_, hmaxall⟩, ?_, ?_⟩
  · rcases hminmem with h | h
    · rw [h]
      exact hmem
    · exact h
  · rcases hmaxmem with h | h
    · rw [h]
      exact hmem
    · exact h
  · show _ / (xs.length : ℚ) = xs.sum / (xs.length : ℚ)
    rw [havg]
    rw [zero_add]
  · show _ = xs.sum
    rw [htot, zero_add]

/-- The `mmaStep` analogue of `mmat_fold_aggOk`. -/
theorem mma_fold_aggOkMMA (xs : List ℚ) (x0 : ℚ) (hmem : x0 ∈ xs) :
    AggOkMMA
      { xs.foldl mmaStep { Min := x0, Max := x0, Avg := 0 } with
        Avg := (xs.foldl mmaStep { Min := x0, Max := x0, Avg := 0 }).Avg
          / (xs.length : ℚ) }
      xs := by
  obtain ⟨hminmem, _, hminall⟩ :=
    foldl_mmaStep_min xs { Min := x0, Max := x0, Avg := 0 }
  obtain ⟨hmaxmem, _, hmaxall⟩ :=
    foldl_mmaStep_max xs { Min := x0, Max := x0, Avg := 0 }
  have havg := foldl_mmaStep_avg xs { Min := x0, Max := x0, Avg := 0 }
  refine ⟨⟨?_, hminall⟩, ⟨?_, hmaxall⟩, ?_⟩
  · rcases hminmem with h | h
    · rw [h]
      exact hmem
    · exact h
  · rcases hmaxmem with h | h
    · rw [h]
      exact hmem
    · exact h
  · show _ / (xs.length : ℚ) = xs.sum / (xs.length : ℚ)
    rw [havg, zero_add]

/-- A uniform lower bound on the samples bounds the sample sum from below. -/
theorem mul_length_le_sum (xs : List ℚ) (c : ℚ) (h : ∀ x ∈ xs, c ≤ x) :
    c * (xs.length : ℚ) ≤ xs.sum := by
  induction xs with
  | nil => simp
  | cons x t ih =>
      simp only [List.sum_cons, List.length_cons]
      have h1 := h x (List.mem_cons_self x t)
      have h2 := ih (fun y hy => h y (List.mem_cons_of_mem x hy))
      have hexp : c * (((t.length : Nat) + 1 : Nat) : ℚ) = c * (t.length : ℚ) + c := by
        push_cast
        ring
      rw [hexp]
      linarith

/-- A uniform upper bound on the samples bounds the sample sum from above. -/
theorem sum_le_mul_length (xs : List ℚ) (c : ℚ) (h : ∀ x ∈ xs, x ≤ c) :
    xs.sum ≤ c * (xs.length : ℚ) := by
  induction xs with
  | nil => simp
  | cons x t ih =>
      simp only [List.sum_cons, List.length_cons]
      have h1 := h x (List.mem_cons_self x t)
      have h2 := ih (fun y hy => h y (List.mem_cons_of_mem x hy))
      have hexp : c * (((t.length : Nat) + 1 : Nat) : ℚ) = c * (t.length : ℚ) + c := by
        push_cast
        ring
      rw [hexp]
      linarith

/-- Arithmetic consequences of a correct aggregate of a non-empty sample list:
`min ≤ avg ≤ max` and `total = k · avg`. -/
theorem aggOk_consequences (a : MinMaxAvgTotal) (xs : List ℚ)
    (h : AggOk a xs) (hne : xs ≠ []) :
    a.Min ≤ a.Avg ∧ a.Avg ≤ a.Max ∧ a.Total = (xs.length : ℚ) * a.Avg := by
  obtain ⟨⟨_, hminall⟩, ⟨_, hmaxall⟩, havg, htot⟩ := h
  have hk : 0 < (xs.length : ℚ) := by
    have h0 : xs.length ≠ 0 := by
      simpa [List.length_eq_zero] using hne
    exact_mod_cast Nat.pos_of_ne_zero h0
  refine ⟨?_, ?_, ?_⟩
  · rw [havg, le_div_iff₀ hk]
    exact mul_length_le_sum xs a.Min hminall
  · rw [havg, div_le_iff₀ hk]
    exact sum_le_mul_length xs a.Max hmaxall
  · rw [htot, havg, mul_div_cancel₀ _ (ne_of_gt hk)]

/-- Projection: `aggregateStats` on a non-empty slice computes, on the `TotalSent`
metric, the seeded min/max fold with summed average divided by the count. -/
theorem aggregateStats_totalSent_eq (first : StatsData) (t : List StatsData) :
    (aggregateStats (first :: t)).TotalSent =
      { (first :: t).map (fun d => d.TotalSent) |>.foldl mmatStep
          { Min := first.TotalSent, Max := first.TotalSent, Avg := 0, Total := 0 } with
        Avg := ((first :: t).map (fun d => d.TotalSent) |>.foldl mmatStep
          { Min := first.TotalSent, Max := first.TotalSent, Avg := 0, Total := 0 }).Avg
            / (((first :: t).length : Nat) : ℚ) } := by
  show (divideAvgs ((first :: t).foldl aggStep (seedAgg first)) (first :: t).length).TotalSent
      = _
  have hc := foldl_aggStep_totalSent (first :: t) (seedAgg first)
  simp only [divideAvgs, hc]
  rfl

/-- The `aggregateStats_totalSent_eq` for the `TotalFailed` metric. -/
theorem aggregateStats_totalFailed_eq (first : StatsData) (t : List StatsData) :
    (aggregateStats (first :: t)).TotalFailed =
      { (first :: t).map (fun d => d.TotalFailed) |>.foldl mmatStep
          { Min := first.TotalFailed, Max := first.TotalFailed, Avg := 0, Total := 0 } with
        Avg := ((first :: t).map (fun d => d.TotalFailed) |>.foldl mmatStep
          { Min := first.TotalFailed, Max := first.TotalFailed, Avg := 0, Total := 0 }).Avg
            / (((first :: t).length : Nat) : ℚ) } := by
  show (divideAvgs ((first :: t).foldl aggStep (seedAgg first)) (first :: t).length).TotalFailed
      = _
  have hc := foldl_aggStep_totalFailed (first :: t) (seedAgg first)
  simp only [divideAvgs, hc]
  rfl

/-- The `aggregateStats_totalSent_eq` for the `TotalRequests` metric. -/
theorem aggregateStats_totalRequests_eq (first : StatsData) (t : List StatsData) :
    (aggregateStats (first :: t)).TotalRequests =
      { (first :: t).map (fun d => d.TotalRequests) |>.foldl mmatStep
          { Min := first.TotalRequests, Max := first.TotalRequests, Avg := 0, Total := 0 } with
        Avg := ((first :: t).map (fun d => d.TotalRequests) |>.foldl mmatStep
          { Min := first.TotalRequests, Max := first.TotalRequests, Avg := 0, Total := 0 }).Avg
            / (((first :: t).length : Nat) : ℚ) } := by
  show (divideAvgs ((first :: t).foldl aggStep (seedAgg first)) (first :: t).length).TotalRequests
      = _
  have hc := foldl_aggStep_totalRequests (first :: t) (seedAgg first)
  simp only [divideAvgs, hc]
  rfl

/-- The `aggregateStats_totalSent_eq` for the `OverallRPS` metric. -/
theorem aggregateStats_overallRPS_eq (first : StatsData) (t : List StatsData) :
    (aggregateStats (first :: t)).OverallRPS =
      { (first :: t).map (fun d => d.OverallRPS) |>.foldl mmatStep
          { Min := first.OverallRPS, Max := first.OverallRPS, Avg := 0, Total := 0 } with
        Avg := ((first :: t).map (fun d => d.OverallRPS) |>.foldl mmatStep
          { Min := first.OverallRPS, Max := first.OverallRPS, Avg := 0, Total := 0 }).Avg
            / (((first :: t).length : Nat) : ℚ) } := by
  show (divideAvgs ((first :: t).foldl aggStep (seedAgg first)) (first :: t).length).OverallRPS
      = _
  have hc := foldl_aggStep_overallRPS (first :: t) (seedAgg first)
  simp only [divideAvgs, hc]
  rfl

/-- The `aggregateStats_totalSent_eq` for the `UptimeSeconds` metric. -/
theorem aggregateStats_uptimeSeconds_eq (first : StatsData) (t : List StatsData) :
    (aggregateStats (first :: t)).UptimeSeconds =
      { (first :: t).map (fun d => d.UptimeSeconds) |>.foldl mmatStep
          { Min := first.UptimeSeconds, Max := first.UptimeSeconds, Avg := 0, Total := 0 } with
        Avg := ((first :: t).map (fun d => d.UptimeSeconds) |>.foldl mmatStep
          { Min := first.UptimeSeconds, Max := first.UptimeSeconds, Avg := 0, Total := 0 }).Avg
            / (((first :: t).length : Nat) : ℚ) } := by
  show (divideAvgs ((first :: t).foldl aggStep (seedAgg first)) (first :: t).length).UptimeSeconds
      = _
  have hc := foldl_aggStep_uptimeSeconds (first :: t) (seedAgg first)
  simp only [divideAvgs, hc]
  rfl

/-- The `aggregateStats_totalSent_eq` for the `ConfiguredFreqMs` metric (no
`Total` field). -/
theorem aggregateStats_configuredFreqMs_eq (first : StatsData) (t : List StatsData) :
    (aggregateStats (first :: t)).ConfiguredFreqMs =
      { (first :: t).map (fun d => d.ConfiguredFreqMs) |>.foldl mmaStep
          { Min := first.ConfiguredFreqMs, Max := first.ConfiguredFreqMs, Avg := 0 } with
        Avg := ((first :: t).map (fun d => d.ConfiguredFreqMs) |>.foldl mmaStep
          { Min := first.ConfiguredFreqMs, Max := first.ConfiguredFreqMs, Avg := 0 }).Avg
            / (((first :: t).length : Nat) : ℚ) } := by
  show (divideAvgs ((first :: t).foldl aggStep (seedAgg first))
      (first :: t).length).ConfiguredFreqMs = _
  have hc := foldl_aggStep_configuredFreqMs (first :: t) (seedAgg first)
  simp only [divideAvgs, hc]
  rfl

/-- Projection: `aggregateStats` counts the running flags: `Running` is the number of
`true` flags and `Total` the response count. -/
theorem aggregateStats_isRunning_eq (first : StatsData) (t : List StatsData) :
    (aggregateStats (first :: t)).IsRunning.Running
        = (((first :: t).map (fun d => d.IsRunning)).count true : ℚ) ∧
    (aggregateStats (first :: t)).IsRunning.Total = (((first :: t).length : Nat) : ℚ) := by
  have hc := foldl_aggStep_isRunning (first :: t) (seedAgg first)
  obtain ⟨h1, h2⟩ := foldl_rcStep_counts ((first :: t).map (fun d => d.IsRunning))
    (seedAgg first).IsRunning
  constructor
  · show (divideAvgs ((first :: t).foldl aggStep (seedAgg first))
        (first :: t).length).IsRunning.Running = _
    simp only [divideAvgs, hc, h1]
    show 0 + _ = _
    rw [zero_add]
  · show (divideAvgs ((first :: t).foldl aggStep (seedAgg first))
        (first :: t).length).IsRunning.Total = _
    simp only [divideAvgs, hc, h2]
    show 0 + _ = _
    rw [zero_add, List.length_map]

/-- Claim C4: over any non-empty list of endpoint responses, `aggregateStats`
returns for each numeric metric the attained minimum and maximum (seeded from
the first sample), the average `sum / k` and — where the metric carries one —
the total `sum`; the running flag is aggregated as count-of-true over `k`;
consequently `min ≤ avg ≤ max` and `total = k · avg` for every metric, and the
`totalSent = {10, 20, 30}` scenario yields min 10, max 30, avg 20,
total 60. -/
theorem aggregate_stats_correct (rs : List StatsData) (hne : rs ≠ []) :
    AggOk (aggregateStats rs).TotalSent (rs.map (fun d => d.TotalSent)) ∧
    AggOk (aggregateStats rs).TotalFailed (rs.map (fun d => d.TotalFailed)) ∧
    AggOk (aggregateStats rs).TotalRequests (rs.map (fun d => d.TotalRequests)) ∧
    AggOk (aggregateStats rs).OverallRPS (rs.map (fun d => d.OverallRPS)) ∧
    AggOk (aggregateStats rs).UptimeSeconds (rs.map (fun d => d.UptimeSeconds)) ∧
    AggOkMMA (aggregateStats rs).ConfiguredFreqMs
      (rs.map (fun d => d.ConfiguredFreqMs)) ∧
    (aggregateStats rs).IsRunning.Running
      = ((rs.map (fun d => d.IsRunning)).count true : ℚ) ∧
    (aggregateStats rs).IsRunning.Total = (rs.length : ℚ) ∧
    ((aggregateStats rs).TotalSent.Min ≤ (aggregateStats rs).TotalSent.Avg ∧
      (aggregateStats rs).TotalSent.Avg ≤ (aggregateStats rs).TotalSent.Max ∧
      (aggregateStats rs).TotalSent.Total
        = (rs.length : ℚ) * (aggregateStats rs).TotalSent.Avg) ∧
    ((aggregateStats rs).TotalFailed.Min ≤ (aggregateStats rs).TotalFailed.Avg ∧
      (aggregateStats rs).TotalFailed.Avg ≤ (aggregateStats rs).TotalFailed.Max ∧
      (aggregateStats rs).TotalFailed.Total
        = (rs.length : ℚ) * (aggregateStats rs).TotalFailed.Avg) ∧
    ((aggregateStats rs).TotalRequests.Min ≤ (aggregateStats rs).TotalRequests.Avg ∧
      (aggregateStats rs).TotalRequests.Avg ≤ (aggregateStats rs).TotalRequests.Max ∧
      (aggregateStats rs).TotalRequests.Total
        = (rs.length : ℚ) * (aggregateStats rs).TotalRequests.Avg) ∧
    ((aggregateStats rs).OverallRPS.Min ≤ (aggregateStats rs).OverallRPS.Avg ∧
      (aggregateStats rs).OverallRPS.Avg ≤ (aggregateStats rs).OverallRPS.Max ∧
      (aggregateStats rs).OverallRPS.Total
        = (rs.length : ℚ) * (aggregateStats rs).OverallRPS.Avg) ∧
    ((aggregateStats rs).UptimeSeconds.Min ≤ (aggregateStats rs).UptimeSeconds.Avg ∧
      (aggregateStats rs).UptimeSeconds.Avg ≤ (aggregateStats rs).UptimeSeconds.Max ∧
      (aggregateStats rs).UptimeSeconds.Total
        = (rs.length : ℚ) * (aggregateStats rs).UptimeSeconds.Avg) ∧
    (aggregateStats scenarioResponses).TotalSent
      = { Min := 10, Max := 30, Avg := 20, Total := 60 } := by
  obtain ⟨first, t, rfl⟩ := List.exists_cons_of_ne_nil hne
  have hTS : AggOk ((aggregateStats (first :: t)).TotalSent)
      ((first :: t).map (fun d => d.TotalSent)) := by
    rw [aggregateStats_totalSent_eq]
    have h := mmat_fold_aggOk ((first :: t).map (fun d => d.TotalSent)) first.TotalSent
      (List.mem_map_of_mem _ (List.mem_cons_self first t))
    simpa [List.length_map] using h
  have hTF : AggOk ((aggregateStats (first :: t)).TotalFailed)
      ((first :: t).map (fun d => d.TotalFailed)) := by
    rw [aggregateStats_totalFailed_eq]
    have h := mmat_fold_aggOk ((first :: t).map (fun d => d.TotalFailed)) first.TotalFailed
      (List.mem_map_of_mem _ (List.mem_cons_self first t))
    simpa [List.length_map] using h
  have hTR : AggOk ((aggregateStats (first :: t)).TotalRequests)
      ((first :: t).map (fun d => d.TotalRequests)) := by
    rw [aggregateStats_totalRequests_eq]
    have h := mmat_fold_aggOk ((first :: t).map (fun d => d.TotalRequests))
      first.TotalRequests (List.mem_map_of_mem _ (List.mem_cons_self first t))
    simpa [List.length_map] using h
  have hRPS : AggOk ((aggregateStats (first :: t)).OverallRPS)
      ((first :: t).map (fun d => d.OverallRPS)) := by
    rw [aggregateStats_overallRPS_eq]
    have h := mmat_fold_aggOk ((first :: t).map (fun d => d.OverallRPS)) first.OverallRPS
      (List.mem_map_of_mem _ (List.mem_cons_self first t))
    simpa [List.length_map] using h
  have hUS : AggOk ((aggregateStats (first :: t)).UptimeSeconds)
      ((first :: t).map (fun d => d.UptimeSeconds)) := by
    rw [aggregateStats_uptimeSeconds_eq]
    have h := mmat_fold_aggOk ((first :: t).map (fun d => d.UptimeSeconds))
      first.UptimeSeconds (List.mem_map_of_mem _ (List.mem_cons_self first t))
    simpa [List.length_map] using h
  have hCF : AggOkMMA ((aggregateStats (first :: t)).ConfiguredFreqMs)
      ((first :: t).map (fun d => d.ConfiguredFreqMs)) := by
    rw [aggregateStats_configuredFreqMs_eq]
    have h := mma_fold_aggOkMMA ((first :: t).map (fun d => d.ConfiguredFreqMs))
      first.ConfiguredFreqMs (List.mem_map_of_mem _ (List.mem_cons_self first t))
    simpa [List.length_map] using h
  obtain ⟨hRun, hRunTot⟩ := aggregateStats_isRunning_eq first t
  have hmapne : ∀ f : StatsData → ℚ, (first :: t).map f ≠ [] := by
    intro f
    simp
  have hcons : ∀ (a : MinMaxAvgTotal) (f : StatsData → ℚ),
      AggOk a ((first :: t).map f) →
      a.Min ≤ a.Avg ∧ a.Avg ≤ a.Max ∧
        a.Total = (((first :: t).length : Nat) : ℚ) * a.Avg := by
    intro a f ha
    have h := aggOk_consequences a ((first :: t).map f) ha (hmapne f)
    simpa [List.length_map] using h
  refine ⟨hTS, hTF, hTR, hRPS, hUS, hCF, hRun, hRunTot,
    hcons _ _ hTS, hcons _ _ hTF, hcons _ _ hTR, hcons _ _ hRPS, hcons _ _ hUS, ?_⟩
  norm_num [scenarioResponses, sentOnly, aggregateStats, seedAgg, zeroAgg, aggStep,
    divideAvgs, List.foldl]

/-- Witness for C4: the spec scenario `totalSent = {10, 20, 30}` aggregates to
min 10, max 30, avg 20, total 60. -/
theorem aggregate_stats_correct_witness :
    (aggregateStats scenarioResponses).TotalSent
      = { Min := 10, Max := 30, Avg := 20, Total := 60 } :=
  (aggregate_stats_correct scenarioResponses (by decide)).2.2.2.2.2.2.2.2.2.2.2.2.2

/-- Counterexample to C5: an endpoint whose transport succeeds, whose body
decodes, and whose HTTP status is 204 — a 2xx status — is nevertheless
excluded from the aggregate; with it as the only endpoint the controller
reports no successful responses. -/
theorem status_204_excluded :
    endpointIncluded endpoint204 = false ∧
    200 ≤ endpoint204.statusCode ∧ endpoint204.statusCode < 300 ∧
    endpoint204.transportOk = true ∧ endpoint204.decodeOk = true ∧
    getAggregatedStats [endpoint204] = .noSuccessfulResponses := by
  refine ⟨rfl, by decide, by decide, rfl, rfl, rfl⟩

/-- Claim C5 (amended): the response of an endpoint is included in the aggregate
exactly when its transport call succeeds, its HTTP status is exactly 200, and
its body decodes; an excluded endpoint is dropped without affecting the
others; with zero included endpoints the controller reports "no successful
responses" and performs no aggregation. -/
theorem fleet_stats_inclusion (endpoints : List EndpointOutcome)
    (e : EndpointOutcome) (l1 l2 : List EndpointOutcome) :
    (endpointIncluded e = true ↔
      e.transportOk = true ∧ e.statusCode = 200 ∧ e.decodeOk = true) ∧
    (endpointIncluded e = false →
      getAggregatedStats (l1 ++ e :: l2) = getAggregatedStats (l1 ++ l2)) ∧
    ((∀ x ∈ endpoints, endpointIncluded x = false) →
      getAggregatedStats endpoints = .noSuccessfulResponses) ∧
    ((endpoints.filter endpointIncluded).length ≠ 0 →
      getAggregatedStats endpoints =
        .aggregated
          (aggregateStats ((endpoints.filter endpointIncluded).map (fun x => x.stats)))
          ((endpoints.filter endpointIncluded).length)) := by
  refine ⟨?_, ?_, ?_, ?_⟩
  · simp [endpointIncluded, Bool.and_eq_true, beq_iff_eq, and_assoc]
  · intro hex
    have hfil : (l1 ++ e :: l2).filter endpointIncluded
        = (l1 ++ l2).filter endpointIncluded := by
      simp [List.filter_append, List.filter_cons, hex]
    simp [getAggregatedStats, hfil]
  · intro hall
    have hfil : endpoints.filter endpointIncluded = [] := by
      rw [List.filter_eq_nil_iff]
      intro a ha
      simp [hall a ha]
    simp [getAggregatedStats, hfil]
  · intro hlen
    simp only [getAggregatedStats, List.length_map, hlen, if_false]

/-- Witness for the amended C5: a 200-status endpoint is included, and a fleet
of one failing endpoint yields the "no successful responses" report. -/
theorem fleet_stats_inclusion_witness :
    (endpointIncluded endpoint204 = true ↔
      endpoint204.transportOk = true ∧ endpoint204.statusCode = 200 ∧
        endpoint204.decodeOk = true) ∧
    getAggregatedStats [endpoint204] = .noSuccessfulResponses := by
  have h := fleet_stats_inclusion [endpoint204] endpoint204 [] []
  exact ⟨h.1, h.2.2.1 (by decide)⟩
